import Mathlib

/-!
Verification of the HelixOps incident-diagnosis core.

A shallow embedding of the HelixOps pipeline: the Context Orchestrator
(`PrepareContext` and its fetch tasks), the Analysis Engine (prompt builders),
the Remediation Rule Engine (`GetSuggestions`), and the Postmortem Composer
(`Generate` / `assembleMarkdown`), together with theorems settling the stated
properties of these components.

Embedding conventions:
* Go `time.Time` and `time.Duration` values are carried as `Int` (Unix
  nanoseconds resp. nanosecond counts).  Calendar rendering (`t.Format`) is
  abstracted to a fixed injective textual encoding of the instant; no property
  below depends on the calendar text itself.
* Go `float64` metric fields are carried as `Rat`; the `%.2f` renderer is a
  fixed concrete function (rounding-mode differences are immaterial here).
* Fallible Go calls are `Except String α`; a Go runtime panic (out-of-range
  string slice) is `Option.none`.
* Goroutine completion order on the result channel of the orchestrator is an
  explicit `order` list, quantified over all permutations of the three task
  results.
-/

namespace HelixOps

/-- Go `strings.Contains` on character lists: `sub` occurs contiguously in `s`. -/
def listContainsSub : List Char → List Char → Bool
  | [], sub => sub.isEmpty
  | c :: t, sub => sub.isPrefixOf (c :: t) || listContainsSub t sub

/-- Go `strings.Contains` on strings. -/
def goContains (s sub : String) : Bool :=
  listContainsSub s.toList sub.toList

/-- Number of (possibly overlapping) occurrences of `sub` in `s`. -/
def countSub : List Char → List Char → Nat
  | [], _ => 0
  | c :: t, sub => (if sub.isPrefixOf (c :: t) then 1 else 0) + countSub t sub

/-- Go `strings.ToLower`, character by character (kernel-computable; the core
`String.toLower` recurses on UTF-8 positions, which the kernel cannot unfold).
Faithful for the ASCII alert names the engine sees. -/
def goToLower (s : String) : String :=
  String.mk (s.toList.map Char.toLower)

/-- Go slicing `s[:n]`, byte-granular in the source, modeled at character
granularity over the char list (kernel-computable, unlike `String.take`). -/
def goTake (s : String) (n : Nat) : String :=
  String.mk (s.toList.take n)

/-- The ASCII apostrophe as a one-character string (kept out of literals). -/
def sq : String := String.mk [Char.ofNat 39]

/-- Go map indexing `m[k]` for `map[string]string`: empty string when absent. -/
def lookupStr (m : List (String × String)) (k : String) : String :=
  match m.find? (fun p => p.1 == k) with
  | some p => p.2
  | none => ""

/-- Go `t.Format(layout)`, abstracted to an injective encoding of the instant
(`t` is Unix nanoseconds).  The claims below never depend on calendar text. -/
def goFormatTime (layout : String) (t : Int) : String :=
  layout ++ "@" ++ toString t

/-- The Go `time.RFC3339` layout string. -/
def rfc3339Layout : String := "2006-01-02T15:04:05Z07:00"

/-- Go `time.Duration.String()`, abstracted to the nanosecond count. -/
def goDurationString (d : Int) : String :=
  toString d ++ "ns"

/-- Go `fmt.Sprintf("%.2f", x)` over the `Rat` carrier of `float64` values
(concrete fixed-point rendering; rounding mode immaterial to the claims). -/
def fmtF2 (x : Rat) : String :=
  let scaled : Int := (x * 100).floor
  let n := scaled.natAbs
  (if scaled < 0 then "-" else "") ++ toString (n / 100) ++ "." ++
    (if n % 100 < 10 then "0" else "") ++ toString (n % 100)

/-! ## Data model (`internal/models`, `internal/clients/tempo`) -/

/-- `models.AlertInfo`: simplified alert data for analysis. -/
structure AlertInfo where
  name : String
  severity : String
  summary : String
  labels : List (String × String)
  startedAt : Int
deriving DecidableEq, Repr

/-- The Go zero value of `AlertInfo`. -/
def AlertInfo.zero : AlertInfo :=
  { name := "", severity := "", summary := "", labels := [], startedAt := 0 }

/-- `models.MetricsSummary`: golden-signals metrics with baselines. -/
structure MetricsSummary where
  latencyP99 : Rat
  latencyAvg : Rat
  errorRate : Rat
  rps : Rat
  memoryUsage : Rat
  baselineLatency : Rat
  baselineErrorRate : Rat
  baselineRPS : Rat
deriving DecidableEq, Repr

/-- The Go zero value of `MetricsSummary`. -/
def MetricsSummary.zero : MetricsSummary :=
  { latencyP99 := 0, latencyAvg := 0, errorRate := 0, rps := 0, memoryUsage := 0,
    baselineLatency := 0, baselineErrorRate := 0, baselineRPS := 0 }

/-- `models.CommitInfo`: a GitHub commit as carried in the analysis context. -/
structure CommitInfo where
  sha : String
  message : String
  author : String
  email : String
  url : String
  timestamp : Int
  prNumber : Int
deriving DecidableEq, Repr

/-- `tempo.Span`: a single timed operation within a trace. -/
structure Span where
  spanID : String
  traceID : String
  serviceName : String
  operationName : String
  startTime : Int
  durationMs : Int
  status : String
deriving DecidableEq, Repr

/-- `tempo.Trace`: a complete distributed trace. -/
structure Trace where
  traceID : String
  spans : List Span
deriving DecidableEq, Repr

/-- `tempo.TraceContext`: aggregated traces and spans for RCA prompts. -/
structure TraceContext where
  slowSpans : List Span
  errorSpans : List Span
  traceCount : Nat
  p99Latency : Rat
deriving DecidableEq, Repr

/-- The Go zero value of `TraceContext`. -/
def TraceContext.zero : TraceContext :=
  { slowSpans := [], errorSpans := [], traceCount := 0, p99Latency := 0 }

/-- `models.LogEntry`: a log entry from Loki. -/
structure LogEntry where
  timestamp : Int
  level : String
  message : String
  service : String
  error : String
  stackTrace : String
deriving DecidableEq, Repr

/-- `models.TimeWindow`: the time range for queries.  The Go field `End` is
spelled `endTime` because `end` is reserved in Lean. -/
structure TimeWindow where
  start : Int
  endTime : Int
  duration : String
deriving DecidableEq, Repr

/-- The Go zero value of `TimeWindow`. -/
def TimeWindow.zero : TimeWindow :=
  { start := 0, endTime := 0, duration := "" }

/-- `models.AnalysisContext`: all data needed for RCA. -/
structure AnalysisContext where
  serviceName : String
  alert : AlertInfo
  metrics : MetricsSummary
  recentCommits : List CommitInfo
  errorLogs : List LogEntry
  traces : TraceContext
  timeWindow : TimeWindow
deriving DecidableEq, Repr

/-- The Go zero value of `AnalysisContext`. -/
def AnalysisContext.zero : AnalysisContext :=
  { serviceName := "", alert := AlertInfo.zero, metrics := MetricsSummary.zero,
    recentCommits := [], errorLogs := [], traces := TraceContext.zero,
    timeWindow := TimeWindow.zero }

/-- `models.AnalysisResult`: the result of RCA analysis. -/
structure AnalysisResult where
  id : String
  serviceName : String
  alertName : String
  severity : String
  summary : String
  rootCause : String
  confidence : String
  nextSteps : List String
  metrics : MetricsSummary
  commits : List CommitInfo
  analyzedAt : Int
deriving DecidableEq, Repr

/-! ## Remediation Rule Engine (`internal/remediation`) -/

/-- `remediation.Suggestion`: an actionable remediation step. -/
structure Suggestion where
  title : String
  description : String
  action : String
deriving DecidableEq, Repr

/-- `remediation.Engine.GetSuggestions`: case-insensitive substring matching of
the alert name against the fixed category order latency, error-rate,
CPU/throttling, memory/OOM; matched categories append their suggestions. -/
def getSuggestions (alert : AlertInfo) : List Suggestion :=
  let alertName := goToLower alert.name
  let latencySugs : List Suggestion :=
    if goContains alertName "highlatency" || goContains alertName "latency" then
      [ { title := "Check Database Query Performance",
          description := "High latency is often caused by unoptimized queries or missing indexes.",
          action := "Review slow query logs in your database provider or check APM traces for bottleneck spans." },
        { title := "Scale Up Service Replicas",
          description := "If CPU/Memory is also high, the service might be underprovisioned for current traffic.",
          action := "kubectl scale deployment " ++ lookupStr alert.labels "service_name" ++ " --replicas=3" } ]
    else []
  let errorSugs : List Suggestion :=
    if goContains alertName "errorrate" || goContains alertName "high_error_rate" then
      [ { title := "Investigate Recent Deployments",
          description := "Spikes in error rates strongly correlate with recent code deployments.",
          action := "Check GitHub Actions or ArgoCD for recent rollouts to this service." },
        { title := "Check Downstream Dependencies",
          description := "Ensure that upstream endpoints or databases are not rejecting connections or timing out.",
          action := "Review error logs in Loki for " ++ sq ++ "connection refused" ++ sq ++ " or " ++ sq ++ "timeout" ++ sq ++ " errors." } ]
    else []
  let cpuSugs : List Suggestion :=
    if goContains alertName "cpu" || goContains alertName "throttling" then
      [ { title := "Review CPU Limits",
          description := "The container might be getting heavily throttled by Kubernetes CPU limits.",
          action := "Consider increasing the CPU limit in the pod" ++ sq ++ "s resources configuration." } ]
    else []
  let memorySugs : List Suggestion :=
    if goContains alertName "memory" || goContains alertName "oom" then
      [ { title := "Investigate Memory Leaks",
          description := "If memory climbs steadily until OOMKilled, there may be a memory leak.",
          action := "Capture a heap profile (pprof) and analyze memory allocations." } ]
    else []
  latencySugs ++ errorSugs ++ cpuSugs ++ memorySugs

/-! ## Configuration (`internal/config`) -/

/-- `config.GitHubConfig`, restricted to the field the orchestrator reads. -/
structure GitHubConfig where
  apiURL : String
deriving DecidableEq, Repr

/-- `config.AnalysisConfig`: the configured window strings, carried as the
durations (nanoseconds) that `time.ParseDuration` yields, `0` when unset or
unparseable exactly as in the source. -/
structure AnalysisConfig where
  metricsWindow : Int
  commitsLookback : Int
deriving DecidableEq, Repr

/-- `AnalysisConfig.GetMetricsWindowDuration`: parsed duration, defaulting to
15 minutes when it is zero. -/
def AnalysisConfig.getMetricsWindowDuration (c : AnalysisConfig) : Int :=
  if c.metricsWindow = 0 then 15 * 60 * 1000000000 else c.metricsWindow

/-- `AnalysisConfig.GetCommitsLookbackDuration`: parsed duration, defaulting to
24 hours when it is zero. -/
def AnalysisConfig.getCommitsLookbackDuration (c : AnalysisConfig) : Int :=
  if c.commitsLookback = 0 then 24 * 3600 * 1000000000 else c.commitsLookback

/-- The slice of `config.Config` the orchestrator consumes. -/
structure Config where
  github : GitHubConfig
  analysis : AnalysisConfig
deriving DecidableEq, Repr

/-! ## Collaborator environment

The collaborators of the orchestrator (Prometheus, GitHub, Tempo clients) are out of
scope wire clients; the environment records, per query, the value or error each
collaborator would return under the cancellation scope of the caller.  A `none`
`tempoClient` in the source (client not configured) is `tempoEnabled = false`.
GitHub commits arrive already converted to `CommitInfo` (the orchestrator
field-by-field repackaging of the wire commit, including its `parseTime` of the
author date, is a per-element conversion that no claim inspects). -/

structure Env where
  queryLatencyP99 : String → Int → Int → Except String Rat
  queryErrorRate : String → Int → Int → Except String Rat
  queryRPS : String → Int → Int → Except String Rat
  fetchCommitsByRepo : String → Int → Except String (List CommitInfo)
  tempoEnabled : Bool
  getTracesByService : String → Int → Int → Except String (List Trace)
  searchSlowSpans : String → Int → Except String (List Span)

/-! ## Context Orchestrator (`internal/orchestrator`, `part_006`) -/

/-- `Orchestrator.fetchMetrics`: queries the three golden signals, keeping the
zero value for any query that errors, and always returns a `nil` error. -/
def fetchMetrics (env : Env) (serviceName : String) (start endT : Int) :
    MetricsSummary × Option String :=
  let metrics := MetricsSummary.zero
  let metrics := match env.queryLatencyP99 serviceName start endT with
    | .ok latency => { metrics with latencyP99 := latency }
    | .error _ => metrics
  let metrics := match env.queryErrorRate serviceName start endT with
    | .ok errorRate => { metrics with errorRate := errorRate }
    | .error _ => metrics
  let metrics := match env.queryRPS serviceName start endT with
    | .ok rps => { metrics with rps := rps }
    | .error _ => metrics
  (metrics, none)

/-- `Orchestrator.fetchCommits`: repo falls back to the service name when the
configured API URL is empty; an error yields `nil` commits plus the error. -/
def fetchCommits (cfg : Config) (env : Env) (serviceName : String) (since : Int) :
    List CommitInfo × Option String :=
  let repo := if cfg.github.apiURL = "" then serviceName else cfg.github.apiURL
  match env.fetchCommitsByRepo repo since with
  | .error e => ([], some e)
  | .ok commits => (commits, none)

/-- `Orchestrator.fetchTraces`: a disabled Tempo client short-circuits to the
zero `TraceContext` with no error; a trace-query error yields the zero value
plus the error; a slow-span query error is swallowed. -/
def fetchTraces (env : Env) (serviceName : String) (start endT : Int) :
    TraceContext × Option String :=
  if env.tempoEnabled = false then (TraceContext.zero, none)
  else
    match env.getTracesByService serviceName start endT with
    | .error e => (TraceContext.zero, some e)
    | .ok traces =>
      let traceCtx := { TraceContext.zero with traceCount := traces.length }
      let traceCtx := match env.searchSlowSpans serviceName 500 with
        | .ok slowSpans => { traceCtx with slowSpans := slowSpans }
        | .error _ => traceCtx
      (traceCtx, none)

/-- The per-goroutine `result` struct sent on the orchestrator channel;
unset fields are the Go zero values of the composite literal. -/
structure FetchResult where
  metrics : MetricsSummary
  commits : List CommitInfo
  traces : TraceContext
  err : Option String
deriving DecidableEq, Repr

/-- The Go zero value of the channel `result` struct. -/
def FetchResult.zero : FetchResult :=
  { metrics := MetricsSummary.zero, commits := [], traces := TraceContext.zero,
    err := none }

/-- One iteration of the collection loop of `PrepareContext`: remember the latest
error, and adopt a task field only when it passes the data-present guard. -/
def mergeStep (acc : AnalysisContext × Option String) (r : FetchResult) :
    AnalysisContext × Option String :=
  let aggregatedErr := match r.err with
    | some e => some e
    | none => acc.2
  let c := acc.1
  let c := if 0 < r.commits.length then { c with recentCommits := r.commits } else c
  let c := if 0 < r.metrics.latencyP99 ∨ 0 < r.metrics.errorRate then
      { c with metrics := r.metrics } else c
  let c := if 0 < r.traces.traceCount then { c with traces := r.traces } else c
  (c, aggregatedErr)

/-- The reported result of the metrics goroutine (window `[alertTime − metricsWindow, alertTime]`). -/
def metricsTask (cfg : Config) (env : Env) (serviceName : String) (alertTime : Int) :
    FetchResult :=
  let m := fetchMetrics env serviceName
    (alertTime - cfg.analysis.getMetricsWindowDuration) alertTime
  { FetchResult.zero with metrics := m.1, err := m.2 }

/-- The reported result of the commits goroutine (since `alertTime − commitsLookback`). -/
def commitsTask (cfg : Config) (env : Env) (serviceName : String) (alertTime : Int) :
    FetchResult :=
  let cs := fetchCommits cfg env serviceName
    (alertTime - cfg.analysis.getCommitsLookbackDuration)
  { FetchResult.zero with commits := cs.1, err := cs.2 }

/-- The reported result of the traces goroutine (same window as metrics). -/
def tracesTask (cfg : Config) (env : Env) (serviceName : String) (alertTime : Int) :
    FetchResult :=
  let t := fetchTraces env serviceName
    (alertTime - cfg.analysis.getMetricsWindowDuration) alertTime
  { FetchResult.zero with traces := t.1, err := t.2 }

/-- The three concurrent fetch tasks of `PrepareContext`, each reporting its
result once on the shared channel, in the textual spawn order. -/
def taskResults (cfg : Config) (env : Env) (serviceName : String) (alertTime : Int) :
    List FetchResult :=
  [ metricsTask cfg env serviceName alertTime,
    commitsTask cfg env serviceName alertTime,
    tracesTask cfg env serviceName alertTime ]

/-- The `ctxResult` struct literal of `PrepareContext` before the collection
loop runs: service name and time window anchored to `alertTime`. -/
def initCtx (cfg : Config) (serviceName : String) (alertTime : Int) : AnalysisContext :=
  { AnalysisContext.zero with
    serviceName := serviceName
    timeWindow :=
      { start := alertTime - cfg.analysis.getMetricsWindowDuration,
        endTime := alertTime,
        duration := goDurationString cfg.analysis.getMetricsWindowDuration } }

/-- `Orchestrator.PrepareContext` with the channel arrival order made explicit:
the collection loop folds the three task results in arrival order over the
initial context. -/
def prepareContextWith (cfg : Config) (serviceName : String) (alertTime : Int)
    (order : List FetchResult) : AnalysisContext × Option String :=
  order.foldl mergeStep (initCtx cfg serviceName alertTime, none)

/-- `Orchestrator.PrepareContext` at the canonical (spawn-order) arrival. -/
def prepareContext (cfg : Config) (env : Env) (serviceName : String)
    (alertTime : Int) : AnalysisContext × Option String :=
  prepareContextWith cfg serviceName alertTime (taskResults cfg env serviceName alertTime)

/-! ## Invariants of the collection loop -/

lemma mergeStep_timeWindow (acc : AnalysisContext × Option String) (r : FetchResult) :
    ((mergeStep acc r).1).timeWindow = acc.1.timeWindow := by
  unfold mergeStep
  cases r.err <;> dsimp only <;> split <;> split <;> split <;> rfl

lemma mergeStep_serviceName (acc : AnalysisContext × Option String) (r : FetchResult) :
    ((mergeStep acc r).1).serviceName = acc.1.serviceName := by
  unfold mergeStep
  cases r.err <;> dsimp only <;> split <;> split <;> split <;> rfl

lemma mergeStep_recentCommits (acc : AnalysisContext × Option String) (r : FetchResult) :
    ((mergeStep acc r).1).recentCommits =
      if 0 < r.commits.length then r.commits else acc.1.recentCommits := by
  unfold mergeStep
  cases r.err <;> dsimp only <;> split <;> split <;> split <;> rfl

lemma mergeStep_metrics (acc : AnalysisContext × Option String) (r : FetchResult) :
    ((mergeStep acc r).1).metrics =
      if 0 < r.metrics.latencyP99 ∨ 0 < r.metrics.errorRate then r.metrics
      else acc.1.metrics := by
  unfold mergeStep
  cases r.err <;> dsimp only <;> split <;> split <;> split <;> rfl

lemma mergeStep_traces (acc : AnalysisContext × Option String) (r : FetchResult) :
    ((mergeStep acc r).1).traces =
      if 0 < r.traces.traceCount then r.traces else acc.1.traces := by
  unfold mergeStep
  cases r.err <;> dsimp only <;> split <;> split <;> split <;> rfl

lemma mergeStep_err (acc : AnalysisContext × Option String) (r : FetchResult) :
    (mergeStep acc r).2 = match r.err with | some e => some e | none => acc.2 := by
  unfold mergeStep
  cases r.err <;> rfl

lemma foldl_mergeStep_timeWindow (rs : List FetchResult)
    (acc : AnalysisContext × Option String) :
    ((rs.foldl mergeStep acc).1).timeWindow = acc.1.timeWindow := by
  induction rs generalizing acc with
  | nil => rfl
  | cons r rs ih => rw [List.foldl_cons, ih, mergeStep_timeWindow]

lemma foldl_mergeStep_serviceName (rs : List FetchResult)
    (acc : AnalysisContext × Option String) :
    ((rs.foldl mergeStep acc).1).serviceName = acc.1.serviceName := by
  induction rs generalizing acc with
  | nil => rfl
  | cons r rs ih => rw [List.foldl_cons, ih, mergeStep_serviceName]

lemma foldl_err_none (rs : List FetchResult) (acc : AnalysisContext × Option String)
    (h : ∀ r ∈ rs, r.err = none) : (rs.foldl mergeStep acc).2 = acc.2 := by
  induction rs generalizing acc with
  | nil => rfl
  | cons r rs ih =>
    rw [List.foldl_cons, ih _ (fun x hx => h x (List.mem_cons_of_mem _ hx)),
      mergeStep_err, h r (List.mem_cons_self _ _)]

lemma foldl_err_stable (rs : List FetchResult) (acc : AnalysisContext × Option String)
    (e : String) (hall : ∀ r ∈ rs, r.err = none ∨ r.err = some e)
    (hacc : acc.2 = some e) : (rs.foldl mergeStep acc).2 = some e := by
  induction rs generalizing acc with
  | nil => exact hacc
  | cons r rs ih =>
    rw [List.foldl_cons]
    refine ih _ (fun x hx => hall x (List.mem_cons_of_mem _ hx)) ?_
    rw [mergeStep_err]
    rcases hall r (List.mem_cons_self _ _) with h | h
    · rw [h]; exact hacc
    · rw [h]

lemma foldl_err_unique (rs : List FetchResult) (acc : AnalysisContext × Option String)
    (e : String) (hall : ∀ r ∈ rs, r.err = none ∨ r.err = some e)
    (hex : ∃ r ∈ rs, r.err = some e) (hacc : acc.2 = none ∨ acc.2 = some e) :
    (rs.foldl mergeStep acc).2 = some e := by
  induction rs generalizing acc with
  | nil => exact absurd hex (by simp)
  | cons r rs ih =>
    rw [List.foldl_cons]
    rcases hall r (List.mem_cons_self _ _) with h | h
    · obtain ⟨w, hw, hwe⟩ := hex
      rcases List.mem_cons.mp hw with rfl | hw
      · exact absurd hwe (by rw [h]; simp)
      · refine ih _ (fun x hx => hall x (List.mem_cons_of_mem _ hx)) ⟨w, hw, hwe⟩ ?_
        rw [mergeStep_err, h]
        exact hacc
    · refine foldl_err_stable rs _ e (fun x hx => hall x (List.mem_cons_of_mem _ hx)) ?_
      rw [mergeStep_err, h]

lemma foldl_err_isSome_stable (rs : List FetchResult)
    (acc : AnalysisContext × Option String) (hacc : acc.2.isSome) :
    (rs.foldl mergeStep acc).2.isSome := by
  induction rs generalizing acc with
  | nil => exact hacc
  | cons r rs ih =>
    rw [List.foldl_cons]
    refine ih _ ?_
    rw [mergeStep_err]
    cases h : r.err with
    | none => exact hacc
    | some e => simp

lemma foldl_err_isSome (rs : List FetchResult) (acc : AnalysisContext × Option String)
    (hex : ∃ r ∈ rs, r.err.isSome) : (rs.foldl mergeStep acc).2.isSome := by
  induction rs generalizing acc with
  | nil => exact absurd hex (by simp)
  | cons r rs ih =>
    rw [List.foldl_cons]
    rcases hex with ⟨w, hw, hwe⟩
    rcases List.mem_cons.mp hw with rfl | hw
    · refine foldl_err_isSome_stable rs _ ?_
      rw [mergeStep_err]
      cases h : w.err with
      | none => rw [h] at hwe; exact absurd hwe (by simp)
      | some e => simp
    · exact ih _ ⟨w, hw, hwe⟩

lemma foldl_commits_nowrite (rs : List FetchResult)
    (acc : AnalysisContext × Option String) (h : ∀ r ∈ rs, r.commits = []) :
    ((rs.foldl mergeStep acc).1).recentCommits = acc.1.recentCommits := by
  induction rs generalizing acc with
  | nil => rfl
  | cons r rs ih =>
    rw [List.foldl_cons, ih _ (fun x hx => h x (List.mem_cons_of_mem _ hx)),
      mergeStep_recentCommits, h r (List.mem_cons_self _ _)]
    rfl

lemma foldl_commits_stable (rs : List FetchResult)
    (acc : AnalysisContext × Option String) (cs : List CommitInfo)
    (hall : ∀ r ∈ rs, r.commits = [] ∨ r.commits = cs)
    (hacc : acc.1.recentCommits = cs) :
    ((rs.foldl mergeStep acc).1).recentCommits = cs := by
  induction rs generalizing acc with
  | nil => exact hacc
  | cons r rs ih =>
    rw [List.foldl_cons]
    refine ih _ (fun x hx => hall x (List.mem_cons_of_mem _ hx)) ?_
    rw [mergeStep_recentCommits]
    rcases hall r (List.mem_cons_self _ _) with h | h <;> rw [h] <;> split <;>
      simp_all

lemma foldl_commits_unique (rs : List FetchResult)
    (acc : AnalysisContext × Option String) (cs : List CommitInfo) (hcs : cs ≠ [])
    (hall : ∀ r ∈ rs, r.commits = [] ∨ r.commits = cs)
    (hex : ∃ r ∈ rs, r.commits = cs) :
    ((rs.foldl mergeStep acc).1).recentCommits = cs := by
  induction rs generalizing acc with
  | nil => exact absurd hex (by simp)
  | cons r rs ih =>
    rw [List.foldl_cons]
    rcases hall r (List.mem_cons_self _ _) with h | h
    · obtain ⟨w, hw, hwe⟩ := hex
      rcases List.mem_cons.mp hw with rfl | hw
      · exact absurd hcs (by rw [← hwe, h]; simp)
      · exact ih _ (fun x hx => hall x (List.mem_cons_of_mem _ hx)) ⟨w, hw, hwe⟩
    · refine foldl_commits_stable rs _ cs
        (fun x hx => hall x (List.mem_cons_of_mem _ hx)) ?_
      rw [mergeStep_recentCommits, h, if_pos (by simpa using List.length_pos.mpr hcs)]

lemma foldl_metrics_nowrite (rs : List FetchResult)
    (acc : AnalysisContext × Option String)
    (h : ∀ r ∈ rs, ¬(0 < r.metrics.latencyP99 ∨ 0 < r.metrics.errorRate)) :
    ((rs.foldl mergeStep acc).1).metrics = acc.1.metrics := by
  induction rs generalizing acc with
  | nil => rfl
  | cons r rs ih =>
    rw [List.foldl_cons, ih _ (fun x hx => h x (List.mem_cons_of_mem _ hx)),
      mergeStep_metrics, if_neg (h r (List.mem_cons_self _ _))]

lemma foldl_metrics_stable (rs : List FetchResult)
    (acc : AnalysisContext × Option String) (m : MetricsSummary)
    (hall : ∀ r ∈ rs,
      ¬(0 < r.metrics.latencyP99 ∨ 0 < r.metrics.errorRate) ∨ r.metrics = m)
    (hacc : acc.1.metrics = m) :
    ((rs.foldl mergeStep acc).1).metrics = m := by
  induction rs generalizing acc with
  | nil => exact hacc
  | cons r rs ih =>
    rw [List.foldl_cons]
    refine ih _ (fun x hx => hall x (List.mem_cons_of_mem _ hx)) ?_
    rw [mergeStep_metrics]
    rcases hall r (List.mem_cons_self _ _) with h | h
    · rw [if_neg h]; exact hacc
    · split <;> simp_all

lemma foldl_metrics_unique (rs : List FetchResult)
    (acc : AnalysisContext × Option String) (m : MetricsSummary)
    (hm : 0 < m.latencyP99 ∨ 0 < m.errorRate)
    (hall : ∀ r ∈ rs,
      ¬(0 < r.metrics.latencyP99 ∨ 0 < r.metrics.errorRate) ∨ r.metrics = m)
    (hex : ∃ r ∈ rs, r.metrics = m) :
    ((rs.foldl mergeStep acc).1).metrics = m := by
  induction rs generalizing acc with
  | nil => exact absurd hex (by simp)
  | cons r rs ih =>
    rw [List.foldl_cons]
    rcases hall r (List.mem_cons_self _ _) with h | h
    · obtain ⟨w, hw, hwe⟩ := hex
      rcases List.mem_cons.mp hw with rfl | hw
      · rw [hwe] at h; exact absurd hm h
      · exact ih _ (fun x hx => hall x (List.mem_cons_of_mem _ hx)) ⟨w, hw, hwe⟩
    · refine foldl_metrics_stable rs _ m
        (fun x hx => hall x (List.mem_cons_of_mem _ hx)) ?_
      rw [mergeStep_metrics, h, if_pos hm]

lemma foldl_traces_nowrite (rs : List FetchResult)
    (acc : AnalysisContext × Option String)
    (h : ∀ r ∈ rs, r.traces.traceCount = 0) :
    ((rs.foldl mergeStep acc).1).traces = acc.1.traces := by
  induction rs generalizing acc with
  | nil => rfl
  | cons r rs ih =>
    rw [List.foldl_cons, ih _ (fun x hx => h x (List.mem_cons_of_mem _ hx)),
      mergeStep_traces, if_neg (by rw [h r (List.mem_cons_self _ _)]; omega)]

lemma foldl_traces_stable (rs : List FetchResult)
    (acc : AnalysisContext × Option String) (t : TraceContext)
    (hall : ∀ r ∈ rs, r.traces.traceCount = 0 ∨ r.traces = t)
    (hacc : acc.1.traces = t) :
    ((rs.foldl mergeStep acc).1).traces = t := by
  induction rs generalizing acc with
  | nil => exact hacc
  | cons r rs ih =>
    rw [List.foldl_cons]
    refine ih _ (fun x hx => hall x (List.mem_cons_of_mem _ hx)) ?_
    rw [mergeStep_traces]
    rcases hall r (List.mem_cons_self _ _) with h | h
    · rw [if_neg (by rw [h]; omega)]; exact hacc
    · split <;> simp_all

lemma foldl_traces_unique (rs : List FetchResult)
    (acc : AnalysisContext × Option String) (t : TraceContext)
    (ht : 0 < t.traceCount)
    (hall : ∀ r ∈ rs, r.traces.traceCount = 0 ∨ r.traces = t)
    (hex : ∃ r ∈ rs, r.traces = t) :
    ((rs.foldl mergeStep acc).1).traces = t := by
  induction rs generalizing acc with
  | nil => exact absurd hex (by simp)
  | cons r rs ih =>
    rw [List.foldl_cons]
    rcases hall r (List.mem_cons_self _ _) with h | h
    · obtain ⟨w, hw, hwe⟩ := hex
      rcases List.mem_cons.mp hw with rfl | hw
      · rw [hwe] at h; omega
      · exact ih _ (fun x hx => hall x (List.mem_cons_of_mem _ hx)) ⟨w, hw, hwe⟩
    · refine foldl_traces_stable rs _ t
        (fun x hx => hall x (List.mem_cons_of_mem _ hx)) ?_
      rw [mergeStep_traces, h, if_pos ht]

/-! ## Task-result component facts -/

lemma metricsTask_err_eq (cfg : Config) (env : Env) (s : String) (t : Int) :
    (metricsTask cfg env s t).err = none := rfl

lemma metricsTask_commits_eq (cfg : Config) (env : Env) (s : String) (t : Int) :
    (metricsTask cfg env s t).commits = [] := rfl

lemma metricsTask_traces_eq (cfg : Config) (env : Env) (s : String) (t : Int) :
    (metricsTask cfg env s t).traces = TraceContext.zero := rfl

lemma commitsTask_metrics_eq (cfg : Config) (env : Env) (s : String) (t : Int) :
    (commitsTask cfg env s t).metrics = MetricsSummary.zero := rfl

lemma commitsTask_traces_eq (cfg : Config) (env : Env) (s : String) (t : Int) :
    (commitsTask cfg env s t).traces = TraceContext.zero := rfl

lemma tracesTask_metrics_eq (cfg : Config) (env : Env) (s : String) (t : Int) :
    (tracesTask cfg env s t).metrics = MetricsSummary.zero := rfl

lemma tracesTask_commits_eq (cfg : Config) (env : Env) (s : String) (t : Int) :
    (tracesTask cfg env s t).commits = [] := rfl

lemma tracesTask_of_disabled {cfg : Config} {env : Env} {s : String} {t : Int}
    (hdis : env.tempoEnabled = false) :
    tracesTask cfg env s t = FetchResult.zero := by
  unfold tracesTask fetchTraces
  rw [hdis]
  rfl

lemma mem_taskResults {cfg : Config} {env : Env} {s : String} {t : Int}
    {r : FetchResult} (h : r ∈ taskResults cfg env s t) :
    r = metricsTask cfg env s t ∨ r = commitsTask cfg env s t ∨
      r = tracesTask cfg env s t := by
  simpa [taskResults] using h

lemma zero_metrics_guard_false :
    ¬(0 < MetricsSummary.zero.latencyP99 ∨ 0 < MetricsSummary.zero.errorRate) := by
  simp [MetricsSummary.zero]

/-! ## Concrete data for witnesses -/

/-- A concrete commit with a 10-character SHA. -/
def commitA : CommitInfo :=
  { sha := "a1b2c3d4e5", message := "Fix connection pool sizing", author := "dev",
    email := "dev@example.com", url := "https://example.com/c/a1b2c3d4e5",
    timestamp := 900, prNumber := 0 }

/-- A concrete slow span. -/
def spanA : Span :=
  { spanID := "s1", traceID := "t1", serviceName := "payments",
    operationName := "db.query", startTime := 10, durationMs := 700, status := "ok" }

/-- A concrete trace. -/
def traceA : Trace := { traceID := "t1", spans := [spanA] }

/-- A concrete configuration: one-minute metrics window, default lookback. -/
def cfgW : Config :=
  { github := { apiURL := "" },
    analysis := { metricsWindow := 60000000000, commitsLookback := 0 } }

/-- Environment in which every collaborator succeeds. -/
def envW : Env :=
  { queryLatencyP99 := fun _ _ _ => .ok 12,
    queryErrorRate := fun _ _ _ => .ok (3 / 100),
    queryRPS := fun _ _ _ => .ok 40,
    fetchCommitsByRepo := fun _ _ => .ok [commitA],
    tempoEnabled := true,
    getTracesByService := fun _ _ _ => .ok [traceA],
    searchSlowSpans := fun _ _ => .ok [spanA] }

/-- Environment in which exactly the commit fetch fails. -/
def envC1 : Env :=
  { envW with fetchCommitsByRepo := fun _ _ => .error "github unavailable" }

/-- Environment whose metrics fetch succeeds with an RPS-only summary and in
which every other collaborator succeeds trivially. -/
def envC4 : Env :=
  { queryLatencyP99 := fun _ _ _ => .ok 0,
    queryErrorRate := fun _ _ _ => .ok 0,
    queryRPS := fun _ _ _ => .ok 5,
    fetchCommitsByRepo := fun _ _ => .ok [],
    tempoEnabled := false,
    getTracesByService := fun _ _ _ => .ok [],
    searchSlowSpans := fun _ _ => .ok [] }

/-- Environment with the Tempo collaborator disabled. -/
def envC9 : Env := { envW with tempoEnabled := false }

/-! ## Claims about the Context Orchestrator -/

/-- C3: for every `(serviceName, alertTime)` input and every arrival order of
the fetch results, the `TimeWindow.End` of the returned context equals `alertTime`
and `TimeWindow.Start` equals `alertTime − metricsWindow`, anchored to the
alert timestamp and independent of which fetches succeed. -/
theorem C3_time_window_anchored (cfg : Config) (env : Env) (serviceName : String)
    (alertTime : Int) (order : List FetchResult)
    (horder : order.Perm (taskResults cfg env serviceName alertTime)) :
    (prepareContextWith cfg serviceName alertTime order).1.timeWindow.endTime
        = alertTime ∧
    (prepareContextWith cfg serviceName alertTime order).1.timeWindow.start
        = alertTime - cfg.analysis.getMetricsWindowDuration := by
  unfold prepareContextWith
  rw [foldl_mergeStep_timeWindow]
  exact ⟨rfl, rfl⟩

/-- Witness for C3 at a concrete configuration and environment. -/
theorem C3_time_window_anchored_witness :
    (prepareContextWith cfgW "payments" 1000
        (taskResults cfgW envW "payments" 1000)).1.timeWindow.endTime = 1000 ∧
    (prepareContextWith cfgW "payments" 1000
        (taskResults cfgW envW "payments" 1000)).1.timeWindow.start =
      1000 - cfgW.analysis.getMetricsWindowDuration :=
  C3_time_window_anchored cfgW envW "payments" 1000 _ (List.Perm.refl _)

/-- C1: when exactly one of the three fetch tasks errors (the metrics task
never reports an error), `PrepareContext` still returns a context whose fields
from the other tasks are populated with their data, plus a non-nil error —
for every arrival order of the results. -/
theorem C1_single_fetch_failure_keeps_other_fields (cfg : Config) (env : Env)
    (serviceName : String) (alertTime : Int) (order : List FetchResult)
    (horder : order.Perm (taskResults cfg env serviceName alertTime))
    (hone :
      ((commitsTask cfg env serviceName alertTime).err.isSome ∧
        (tracesTask cfg env serviceName alertTime).err = none) ∨
      ((tracesTask cfg env serviceName alertTime).err.isSome ∧
        (commitsTask cfg env serviceName alertTime).err = none))
    (hm : 0 < (metricsTask cfg env serviceName alertTime).metrics.latencyP99 ∨
      0 < (metricsTask cfg env serviceName alertTime).metrics.errorRate)
    (hcs : (tracesTask cfg env serviceName alertTime).err.isSome →
      (commitsTask cfg env serviceName alertTime).commits ≠ [])
    (htr : (commitsTask cfg env serviceName alertTime).err.isSome →
      0 < (tracesTask cfg env serviceName alertTime).traces.traceCount) :
    (metricsTask cfg env serviceName alertTime).err = none ∧
    (prepareContextWith cfg serviceName alertTime order).2.isSome ∧
    (prepareContextWith cfg serviceName alertTime order).1.metrics =
      (metricsTask cfg env serviceName alertTime).metrics ∧
    ((commitsTask cfg env serviceName alertTime).err.isSome →
      (prepareContextWith cfg serviceName alertTime order).1.traces =
        (tracesTask cfg env serviceName alertTime).traces) ∧
    ((tracesTask cfg env serviceName alertTime).err.isSome →
      (prepareContextWith cfg serviceName alertTime order).1.recentCommits =
        (commitsTask cfg env serviceName alertTime).commits) := by
  unfold prepareContextWith
  have hcases : ∀ r ∈ order, r = metricsTask cfg env serviceName alertTime ∨
      r = commitsTask cfg env serviceName alertTime ∨
      r = tracesTask cfg env serviceName alertTime :=
    fun r hr => mem_taskResults (horder.subset hr)
  have hmemM : metricsTask cfg env serviceName alertTime ∈ order :=
    horder.mem_iff.mpr (by simp [taskResults])
  have hmemC : commitsTask cfg env serviceName alertTime ∈ order :=
    horder.mem_iff.mpr (by simp [taskResults])
  have hmemT : tracesTask cfg env serviceName alertTime ∈ order :=
    horder.mem_iff.mpr (by simp [taskResults])
  refine ⟨rfl, ?_, ?_, ?_, ?_⟩
  · apply foldl_err_isSome
    rcases hone with ⟨hc, _⟩ | ⟨ht, _⟩
    · exact ⟨_, hmemC, hc⟩
    · exact ⟨_, hmemT, ht⟩
  · apply foldl_metrics_unique _ _ _ hm
    · intro r hr
      rcases hcases r hr with rfl | rfl | rfl
      · exact Or.inr rfl
      · exact Or.inl (by rw [commitsTask_metrics_eq]; exact zero_metrics_guard_false)
      · exact Or.inl (by rw [tracesTask_metrics_eq]; exact zero_metrics_guard_false)
    · exact ⟨_, hmemM, rfl⟩
  · intro hc
    apply foldl_traces_unique _ _ _ (htr hc)
    · intro r hr
      rcases hcases r hr with rfl | rfl | rfl
      · exact Or.inl rfl
      · exact Or.inl rfl
      · exact Or.inr rfl
    · exact ⟨_, hmemT, rfl⟩
  · intro ht
    apply foldl_commits_unique _ _ _ (hcs ht)
    · intro r hr
      rcases hcases r hr with rfl | rfl | rfl
      · exact Or.inl rfl
      · exact Or.inr rfl
      · exact Or.inl rfl
    · exact ⟨_, hmemC, rfl⟩

/-- Witness for C1: the commit fetch fails, metrics and traces carry data. -/
theorem C1_single_fetch_failure_keeps_other_fields_witness :
    (metricsTask cfgW envC1 "payments" 1000).err = none ∧
    (prepareContextWith cfgW "payments" 1000
        (taskResults cfgW envC1 "payments" 1000)).2.isSome ∧
    (prepareContextWith cfgW "payments" 1000
        (taskResults cfgW envC1 "payments" 1000)).1.metrics =
      (metricsTask cfgW envC1 "payments" 1000).metrics ∧
    ((commitsTask cfgW envC1 "payments" 1000).err.isSome →
      (prepareContextWith cfgW "payments" 1000
          (taskResults cfgW envC1 "payments" 1000)).1.traces =
        (tracesTask cfgW envC1 "payments" 1000).traces) ∧
    ((tracesTask cfgW envC1 "payments" 1000).err.isSome →
      (prepareContextWith cfgW "payments" 1000
          (taskResults cfgW envC1 "payments" 1000)).1.recentCommits =
        (commitsTask cfgW envC1 "payments" 1000).commits) :=
  C1_single_fetch_failure_keeps_other_fields cfgW envC1 "payments" 1000 _
    (List.Perm.refl _) (by decide) (by decide) (by decide) (by decide)

/-- C4 counterexample: the metrics task succeeds (no error) with an RPS-only
summary, yet the merge drops it — the stored field is the zero summary, not
the task result — refuting "every non-error result is stored unchanged". -/
theorem C4_counterexample_rps_only_metrics_dropped :
    (metricsTask cfgW envC4 "svc" 0).err = none ∧
    (metricsTask cfgW envC4 "svc" 0).metrics = { MetricsSummary.zero with rps := 5 } ∧
    (prepareContext cfgW envC4 "svc" 0).1.metrics ≠
      { MetricsSummary.zero with rps := 5 } := by
  refine ⟨rfl, by decide, by decide⟩

/-- C4 amended: the merge keeps the non-error result of a task only when it passes
the data-present guard of that task (non-empty commit list; positive latency-p99 or
error-rate; positive trace count); otherwise the field keeps its zero value.
This holds for every arrival order of the results. -/
theorem C4_merge_keeps_guarded_results (cfg : Config) (env : Env)
    (serviceName : String) (alertTime : Int) (order : List FetchResult)
    (horder : order.Perm (taskResults cfg env serviceName alertTime)) :
    (prepareContextWith cfg serviceName alertTime order).1.recentCommits =
      (if (commitsTask cfg env serviceName alertTime).commits = [] then []
        else (commitsTask cfg env serviceName alertTime).commits) ∧
    (prepareContextWith cfg serviceName alertTime order).1.metrics =
      (if 0 < (metricsTask cfg env serviceName alertTime).metrics.latencyP99 ∨
          0 < (metricsTask cfg env serviceName alertTime).metrics.errorRate
        then (metricsTask cfg env serviceName alertTime).metrics
        else MetricsSummary.zero) ∧
    (prepareContextWith cfg serviceName alertTime order).1.traces =
      (if 0 < (tracesTask cfg env serviceName alertTime).traces.traceCount
        then (tracesTask cfg env serviceName alertTime).traces
        else TraceContext.zero) := by
  unfold prepareContextWith
  have hcases : ∀ r ∈ order, r = metricsTask cfg env serviceName alertTime ∨
      r = commitsTask cfg env serviceName alertTime ∨
      r = tracesTask cfg env serviceName alertTime :=
    fun r hr => mem_taskResults (horder.subset hr)
  have hmemM : metricsTask cfg env serviceName alertTime ∈ order :=
    horder.mem_iff.mpr (by simp [taskResults])
  have hmemC : commitsTask cfg env serviceName alertTime ∈ order :=
    horder.mem_iff.mpr (by simp [taskResults])
  have hmemT : tracesTask cfg env serviceName alertTime ∈ order :=
    horder.mem_iff.mpr (by simp [taskResults])
  refine ⟨?_, ?_, ?_⟩
  · by_cases hc : (commitsTask cfg env serviceName alertTime).commits = []
    · rw [if_pos hc, foldl_commits_nowrite]
      · rfl
      · intro r hr
        rcases hcases r hr with rfl | rfl | rfl
        · rfl
        · exact hc
        · rfl
    · rw [if_neg hc]
      apply foldl_commits_unique _ _ _ hc
      · intro r hr
        rcases hcases r hr with rfl | rfl | rfl
        · exact Or.inl rfl
        · exact Or.inr rfl
        · exact Or.inl rfl
      · exact ⟨_, hmemC, rfl⟩
  · by_cases hg : 0 < (metricsTask cfg env serviceName alertTime).metrics.latencyP99 ∨
        0 < (metricsTask cfg env serviceName alertTime).metrics.errorRate
    · rw [if_pos hg]
      apply foldl_metrics_unique _ _ _ hg
      · intro r hr
        rcases hcases r hr with rfl | rfl | rfl
        · exact Or.inr rfl
        · exact Or.inl (by rw [commitsTask_metrics_eq]; exact zero_metrics_guard_false)
        · exact Or.inl (by rw [tracesTask_metrics_eq]; exact zero_metrics_guard_false)
      · exact ⟨_, hmemM, rfl⟩
    · rw [if_neg hg, foldl_metrics_nowrite]
      · rfl
      · intro r hr
        rcases hcases r hr with rfl | rfl | rfl
        · exact hg
        · rw [commitsTask_metrics_eq]; exact zero_metrics_guard_false
        · rw [tracesTask_metrics_eq]; exact zero_metrics_guard_false
  · by_cases ht : 0 < (tracesTask cfg env serviceName alertTime).traces.traceCount
    · rw [if_pos ht]
      apply foldl_traces_unique _ _ _ ht
      · intro r hr
        rcases hcases r hr with rfl | rfl | rfl
        · exact Or.inl rfl
        · exact Or.inl rfl
        · exact Or.inr rfl
      · exact ⟨_, hmemT, rfl⟩
    · rw [if_neg ht, foldl_traces_nowrite]
      · rfl
      · intro r hr
        rcases hcases r hr with rfl | rfl | rfl
        · rfl
        · rfl
        · omega


/-- Witness for the amended C4 at a concrete configuration and environment. -/
theorem C4_merge_keeps_guarded_results_witness :
    (prepareContextWith cfgW "payments" 1000
        (taskResults cfgW envW "payments" 1000)).1.recentCommits =
      (if (commitsTask cfgW envW "payments" 1000).commits = [] then []
        else (commitsTask cfgW envW "payments" 1000).commits) ∧
    (prepareContextWith cfgW "payments" 1000
        (taskResults cfgW envW "payments" 1000)).1.metrics =
      (if 0 < (metricsTask cfgW envW "payments" 1000).metrics.latencyP99 ∨
          0 < (metricsTask cfgW envW "payments" 1000).metrics.errorRate
        then (metricsTask cfgW envW "payments" 1000).metrics
        else MetricsSummary.zero) ∧
    (prepareContextWith cfgW "payments" 1000
        (taskResults cfgW envW "payments" 1000)).1.traces =
      (if 0 < (tracesTask cfgW envW "payments" 1000).traces.traceCount
        then (tracesTask cfgW envW "payments" 1000).traces
        else TraceContext.zero) :=
  C4_merge_keeps_guarded_results cfgW envW "payments" 1000 _ (List.Perm.refl _)

/-- C9: with the Tempo collaborator disabled, the trace task contributes the
zero `TraceContext` and no error: the `Traces` field of the returned context is the
zero value and the returned error is exactly the error of the commits task (the
metrics task never errors), for every arrival order. -/
theorem C9_disabled_tempo_zero_traces (cfg : Config) (env : Env)
    (serviceName : String) (alertTime : Int) (order : List FetchResult)
    (hdis : env.tempoEnabled = false)
    (horder : order.Perm (taskResults cfg env serviceName alertTime)) :
    fetchTraces env serviceName
        (alertTime - cfg.analysis.getMetricsWindowDuration) alertTime =
      (TraceContext.zero, none) ∧
    (prepareContextWith cfg serviceName alertTime order).1.traces =
      TraceContext.zero ∧
    (prepareContextWith cfg serviceName alertTime order).2 =
      (commitsTask cfg env serviceName alertTime).err := by
  unfold prepareContextWith
  have hcases : ∀ r ∈ order, r = metricsTask cfg env serviceName alertTime ∨
      r = commitsTask cfg env serviceName alertTime ∨
      r = tracesTask cfg env serviceName alertTime :=
    fun r hr => mem_taskResults (horder.subset hr)
  have hmemC : commitsTask cfg env serviceName alertTime ∈ order :=
    horder.mem_iff.mpr (by simp [taskResults])
  have htz : tracesTask cfg env serviceName alertTime = FetchResult.zero :=
    tracesTask_of_disabled hdis
  refine ⟨by simp [fetchTraces, hdis], ?_, ?_⟩
  · rw [foldl_traces_nowrite]
    · rfl
    · intro r hr
      rcases hcases r hr with rfl | rfl | rfl
      · rfl
      · rfl
      · rw [htz]; rfl
  · cases hce : (commitsTask cfg env serviceName alertTime).err with
    | none =>
      apply foldl_err_none
      intro r hr
      rcases hcases r hr with rfl | rfl | rfl
      · rfl
      · exact hce
      · rw [htz]; rfl
    | some e =>
      apply foldl_err_unique _ _ e
      · intro r hr
        rcases hcases r hr with rfl | rfl | rfl
        · exact Or.inl rfl
        · exact Or.inr hce
        · rw [htz]; exact Or.inl rfl
      · exact ⟨_, hmemC, hce⟩
      · exact Or.inl rfl

/-- Witness for C9 at a concrete disabled-Tempo environment. -/
theorem C9_disabled_tempo_zero_traces_witness :
    fetchTraces envC9 "payments"
        (1000 - cfgW.analysis.getMetricsWindowDuration) 1000 =
      (TraceContext.zero, none) ∧
    (prepareContextWith cfgW "payments" 1000
        (taskResults cfgW envC9 "payments" 1000)).1.traces = TraceContext.zero ∧
    (prepareContextWith cfgW "payments" 1000
        (taskResults cfgW envC9 "payments" 1000)).2 =
      (commitsTask cfgW envC9 "payments" 1000).err :=
  C9_disabled_tempo_zero_traces cfgW envC9 "payments" 1000 _ rfl (List.Perm.refl _)

/-! ## Analysis Engine (`internal/analyzer/rca.go`) -/

/-- `models.AlertItem`: a single alert from AlertManager. -/
structure AlertItem where
  status : String
  labels : List (String × String)
  annotations : List (String × String)
  startsAt : Int
  endsAt : Int
  generatorURL : String
  fingerprint : String
deriving DecidableEq, Repr

/-- `AlertItem.GetLabel`: label value, empty string when absent (also covers
the Go nil-map index, which yields the zero value). -/
def AlertItem.getLabel (a : AlertItem) (key : String) : String :=
  lookupStr a.labels key

/-- `AlertItem.GetAnnotation`: annotation value, empty string when absent. -/
def AlertItem.getAnnotation (a : AlertItem) (key : String) : String :=
  lookupStr ( AlertItem.annotations a) key

/-- `Analyzer.buildPrompt`: the alert-only RCA prompt. -/
def buildPrompt (alert : AlertItem) : String :=
  "\nYou are an SRE analyzing an incident. Given the following alert data, identify the most likely root cause.\n\nALERT:\n- Service: "
    ++ alert.getLabel "service_name"
    ++ "\n- Alert Name: " ++ lookupStr alert.labels "alertname"
    ++ "\n- Severity: " ++ lookupStr alert.labels "severity"
    ++ "\n- Started: " ++ goFormatTime rfc3339Layout alert.startsAt
    ++ "\n- Summary: " ++ AlertItem.getAnnotation alert "summary"
    ++ "\n\nBased on this data, provide:\n1. Most likely root cause (2-3 sentences)\n2. Confidence level (high/medium/low)\n3. Suggested next steps (3 bullet points)\n\nRespond in JSON format:\n\x7b\n  \"root_cause\": \"...\",\n  \"confidence\": \"...\",\n  \"next_steps\": [\"...\", \"...\", \"...\"]\n\x7d\n"

/-- `truncate`: Go byte-length truncation, modeled at character granularity
(all inputs of interest are ASCII, where the two coincide). -/
def truncate (s : String) (maxLen : Nat) : String :=
  if s.length ≤ maxLen then s else goTake s maxLen ++ "..."

/-- The iteration of `formatCommits` over the (at most 10) rendered commits;
`none` models the Go panic of the unguarded slice `c.SHA[:7]` when a SHA is
shorter than 7 bytes. -/
def renderCommits : List CommitInfo → Option String
  | [] => some ""
  | c :: rest =>
    if c.sha.length < 7 then none
    else
      match renderCommits rest with
      | none => none
      | some s =>
        some ("- " ++ goTake c.sha 7 ++ ": " ++ truncate c.message 50
          ++ " (by " ++ c.author ++ ")\n" ++ s)

/-- `formatCommits`: placeholder on an empty list, else at most the first 10
commits rendered. -/
def formatCommits (commits : List CommitInfo) : Option String :=
  if commits.length = 0 then some "No recent commits found."
  else renderCommits (commits.take 10)

/-- `formatSpans`: at most the first 10 spans rendered. -/
def formatSpans (spans : List Span) : String :=
  if spans.length = 0 then ""
  else
    String.join ((spans.take 10).map fun s =>
      "- Service: " ++ s.serviceName ++ "\n  Operation: " ++ s.operationName
        ++ "\n  Duration: " ++ toString s.durationMs ++ "ms\n  Status: "
        ++ s.status ++ "\n")

/-- `Analyzer.buildContextPrompt`: the full-context RCA prompt; `none` models
the panic propagated from `formatCommits`. -/
def buildContextPrompt (ctx : AnalysisContext) : Option String :=
  match formatCommits ctx.recentCommits with
  | none => none
  | some commitsStr =>
    some ("\nYou are an SRE analyzing an incident. Given the following data, identify the most likely root cause.\n\nALERT:\n- Service: "
      ++ ctx.serviceName
      ++ "\n- Alert Name: " ++ ctx.alert.name
      ++ "\n- Severity: " ++ ctx.alert.severity
      ++ "\n- Started: " ++ goFormatTime rfc3339Layout ctx.alert.startedAt
      ++ "\n- Summary: " ++ ctx.alert.summary
      ++ "\n\nMETRICS:\n- Latency P99: " ++ fmtF2 ctx.metrics.latencyP99
      ++ "ms\n- Error Rate: " ++ fmtF2 (ctx.metrics.errorRate * 100)
      ++ "%\n- Requests/sec: " ++ fmtF2 ctx.metrics.rps
      ++ "\n\nBASELINE:\n- Latency: " ++ fmtF2 ctx.metrics.baselineLatency
      ++ "ms\n- Error Rate: " ++ fmtF2 (ctx.metrics.baselineErrorRate * 100)
      ++ "%\n\nDISTRIBUTED TRACES:\n- P99 Latency: " ++ fmtF2 ctx.traces.p99Latency
      ++ "ms\n- Slow Spans (>500ms): " ++ toString ctx.traces.slowSpans.length
      ++ "\n- Error Spans: " ++ toString ctx.traces.errorSpans.length
      ++ "\n\n" ++ formatSpans ctx.traces.slowSpans
      ++ "\n\nRECENT COMMITS (" ++ toString ctx.recentCommits.length
      ++ " commits):\n" ++ commitsStr
      ++ "\nBased on this data, provide:\n1. Most likely root cause (2-3 sentences)\n2. Confidence level (high/medium/low)\n3. Suggested next steps (3 bullet points)\n\nRespond in JSON format:\n\x7b\n  \"root_cause\": \"...\",\n  \"confidence\": \"...\",\n  \"next_steps\": [\"...\", \"...\", \"...\"]\n\x7d\n")

/-- `Analyzer.AnalyzeWithContext`: the backend (a function from prompt text to
response or error), the fresh identifier, and the analysis instant are explicit
parameters; the outer `none` models the panic from prompt construction. -/
def analyzeWithContext (provider : String → Except String String) (newId : String)
    (now : Int) (ctxData : AnalysisContext) : Option (Except String AnalysisResult) :=
  match buildContextPrompt ctxData with
  | none => none
  | some prompt =>
    some (match provider prompt with
      | .error e => .error ("LLM analysis failed: " ++ e)
      | .ok response =>
        .ok { id := newId, serviceName := ctxData.serviceName,
              alertName := ctxData.alert.name, severity := ctxData.alert.severity,
              summary := ctxData.alert.summary, rootCause := response,
              confidence := "medium", nextSteps := [],
              metrics := ctxData.metrics, commits := ctxData.recentCommits,
              analyzedAt := now })

/-! ## MCP recent-commits report (`HandleGetRecentCommits`) -/

/-- The report loop of `HandleGetRecentCommits` over the (at most 5) rendered
commits; `none` models the panic of the unguarded `c.SHA[:7]`. -/
def renderRecentCommitsLoop : List CommitInfo → Option String
  | [] => some ""
  | c :: rest =>
    if c.sha.length < 7 then none
    else
      match renderRecentCommitsLoop rest with
      | none => none
      | some s =>
        some ("- " ++ goTake c.sha 7 ++ ": " ++ c.message ++ " (" ++ c.author
          ++ ")\n" ++ s)

/-- The report built by `HandleGetRecentCommits` from the commit list of the
prepared context. -/
def handleGetRecentCommitsReport (repoName : String) (commits : List CommitInfo) :
    Option String :=
  if commits.length = 0 then
    some ("No recent commits found for " ++ repoName ++ " in the last 24h.")
  else
    match renderRecentCommitsLoop (commits.take 5) with
    | none => none
    | some body => some ("Recent Commits for " ++ repoName ++ ":\n" ++ body)

/-! ## Postmortem Composer (`internal/postmortem`) -/

/-- `postmortem.Postmortem`. -/
structure Postmortem where
  id : String
  incidentName : String
  date : Int
  duration : Int
  rootCause : String
  impact : String
  detectionMethod : String
  actionItems : List String
  remediationRules : List Suggestion
  markdown : String
deriving DecidableEq, Repr

/-- `Generator.buildPrompt`: the postmortem prompt; the resolution instant
`now` (Go `time.Now()`) is an explicit parameter. -/
def buildPostmortemPrompt (ac : AnalysisContext) (now : Int) : String :=
  "\nYou are an expert SRE writing a formal incident postmortem.\nAn alert that was previously firing has now RESOLVED.\n\nINCIDENT DETAILS:\n- Service: "
    ++ ac.serviceName
    ++ "\n- Alert: " ++ ac.alert.name
    ++ "\n- Started: " ++ goFormatTime rfc3339Layout ac.alert.startedAt
    ++ "\n- Resolved: " ++ goFormatTime rfc3339Layout now
    ++ "\n- Total Duration: " ++ goDurationString (now - ac.alert.startedAt)
    ++ "\n\nPlease write a structured postmortem with the following sections in Markdown:\n## 1. Summary\n## 2. Impact\n## 3. Root Cause Analysis\n## 4. Resolution and Recovery\n## 5. What went well & What went wrong\n## 6. Action Items (LLM Suggested)\n\nUse this alert context to inform your writeup:\n- Alert Summary: "
    ++ ac.alert.summary
    ++ "\n- Commits found during window: " ++ toString ac.recentCommits.length
    ++ "\n"

/-- One iteration of the suggestion loop of `assembleMarkdown`. -/
def renderRuleSection (rule : Suggestion) : String :=
  "### " ++ rule.title ++ "\n" ++ rule.description ++ "\n\n"
    ++ "```bash\n" ++ rule.action ++ "\n```\n\n"

/-- The suggestion loop of `assembleMarkdown`: every rule rendered, in order. -/
def renderRules : List Suggestion → String
  | [] => ""
  | rule :: rest => renderRuleSection rule ++ renderRules rest

/-- `Generator.assembleMarkdown`: title, date/duration header, raw backend
narrative, then the automated-suggestions section. -/
def assembleMarkdown (pm : Postmortem) (llmBody : String) : String :=
  let md := "# " ++ pm.incidentName ++ "\n"
  let md := md ++ "**Date:** " ++ goFormatTime "2006-01-02 15:04:05" pm.date ++ "\n"
  let md := md ++ "**Duration:** " ++ goDurationString pm.duration ++ "\n\n"
  let md := md ++ llmBody ++ "\n\n"
  let md := md ++ "## Automated Rule-Based Suggestions\n"
  if pm.remediationRules.length = 0 then
    md ++ "No automated rules matched this incident type.\n"
  else
    md ++ renderRules pm.remediationRules

/-- `Generator.Generate`: backend, fresh id, and generation instant explicit;
a backend error aborts the whole operation with a wrapped error. -/
def generate (provider : String → Except String String) (newId : String)
    (now : Int) (ac : AnalysisContext) : Except String Postmortem :=
  let prompt := buildPostmortemPrompt ac now
  match provider prompt with
  | .error e => .error ("postmortem generation failed: " ++ e)
  | .ok llmResponse =>
    let ruleSuggestions := getSuggestions ac.alert
    let pm : Postmortem :=
      { id := newId,
        incidentName := "Incident: " ++ ac.alert.name ++ " on " ++ ac.serviceName,
        date := now, duration := now - ac.alert.startedAt,
        rootCause := "", impact := "", detectionMethod := "", actionItems := [],
        remediationRules := ruleSuggestions, markdown := "" }
    .ok { pm with markdown := assembleMarkdown pm llmResponse }

/-- The suggested-fixes block loop of the Slack `buildPostmortemMessage`
(`internal/output/slack.go`): it stops after the first 3 rules. -/
def slackSuggestionTexts (rules : List Suggestion) : List String :=
  (rules.take 3).map fun rule =>
    ">*" ++ rule.title ++ "*\n>" ++ rule.description ++ "\n>`" ++ rule.action ++ "`"

/-! ## String containment lemmas -/

lemma toList_append (a b : String) : (a ++ b).toList = a.toList ++ b.toList := rfl

lemma isPrefixOf_append_self (xs ys : List Char) : xs.isPrefixOf (xs ++ ys) = true := by
  rw [List.isPrefixOf_iff_prefix]
  exact List.prefix_append xs ys

lemma isPrefixOf_extend (xs ys zs : List Char) (h : xs.isPrefixOf ys = true) :
    xs.isPrefixOf (ys ++ zs) = true := by
  rw [List.isPrefixOf_iff_prefix] at h ⊢
  exact h.trans (List.prefix_append ys zs)

lemma listContainsSub_of_isPrefixOf (xs sub : List Char)
    (h : sub.isPrefixOf xs = true) : listContainsSub xs sub = true := by
  cases xs with
  | nil =>
    cases sub with
    | nil => rfl
    | cons c t => exact absurd h (by simp [List.isPrefixOf])
  | cons c t => simp [listContainsSub, h]

lemma listContainsSub_append_left (xs ys sub : List Char)
    (h : listContainsSub ys sub = true) : listContainsSub (xs ++ ys) sub = true := by
  induction xs with
  | nil => simpa using h
  | cons x xs ih => simp [listContainsSub, ih]

lemma renderRules_contains_title (rules : List Suggestion) (s : Suggestion)
    (hs : s ∈ rules) :
    listContainsSub (renderRules rules).toList ("### " ++ s.title ++ "\n").toList
      = true := by
  induction rules with
  | nil => cases hs
  | cons r rest ih =>
    rcases List.mem_cons.mp hs with rfl | hs2
    · apply listContainsSub_of_isPrefixOf
      show ("### " ++ s.title ++ "\n").toList.isPrefixOf
        ((renderRuleSection s).toList ++ (renderRules rest).toList) = true
      apply isPrefixOf_extend
      rw [List.isPrefixOf_iff_prefix]
      refine ⟨(s.description ++ "\n\n" ++ "```bash\n" ++ s.action ++ "\n```\n\n").toList, ?_⟩
      show ("### " ++ s.title ++ "\n").toList ++ _ = (renderRuleSection s).toList
      simp only [renderRuleSection, toList_append, List.append_assoc]
    · show listContainsSub ((renderRuleSection r).toList ++ (renderRules rest).toList)
        (("### " ++ s.title ++ "\n").toList) = true
      exact listContainsSub_append_left _ _ _ (ih hs2)

/-! ## Claims about the Postmortem Composer and Rule Engine -/

/-- A backend that always fails. -/
def providerErr : String → Except String String := fun _ => .error "backend down"

/-- A backend that always succeeds with a fixed narrative. -/
def providerOk : String → Except String String := fun _ => .ok "NARRATIVE"

/-- C5: whenever the backend Analyze call returns an error, `Generate`
returns no Postmortem at all, only the wrapped error — never a partially
filled document. -/
theorem C5_generate_nil_on_backend_error (provider : String → Except String String)
    (ac : AnalysisContext) (newId : String) (now : Int) (e : String)
    (h : provider (buildPostmortemPrompt ac now) = .error e) :
    generate provider newId now ac =
      .error ("postmortem generation failed: " ++ e) := by
  simp [generate, h]

/-- Witness for C5 with a concretely failing backend. -/
theorem C5_generate_nil_on_backend_error_witness :
    generate providerErr "pm-1" 500 AnalysisContext.zero =
      .error ("postmortem generation failed: " ++ "backend down") :=
  C5_generate_nil_on_backend_error providerErr AnalysisContext.zero "pm-1" 500
    "backend down" rfl

/-- Alert whose name matches the latency category only. -/
def alertHighLatency : AlertInfo := { AlertInfo.zero with name := "HighLatencyAlert" }

/-- Alert whose name matches the memory/OOM category only. -/
def alertOOM : AlertInfo := { AlertInfo.zero with name := "OOMKilled" }

/-- Alert whose name matches no category. -/
def alertUnknown : AlertInfo := { AlertInfo.zero with name := "UnknownXYZ" }

/-- Alert whose name matches all four categories. -/
def alertAllCats : AlertInfo := { AlertInfo.zero with name := "LatencyErrorrateCpuOom" }

/-- C6: `GetSuggestions` on "HighLatencyAlert" yields exactly the two
latency-category suggestions (hence no memory-category one); on "OOMKilled"
exactly the memory-category suggestion; on "UnknownXYZ" the empty list (and by
type it can never yield an error); matching is case-insensitive and
non-exclusive, contributing categories in the fixed order latency,
error-rate, CPU/throttling, memory/OOM. -/
theorem C6_getSuggestions_category_matching :
    ((getSuggestions alertHighLatency).map (fun s => s.title) =
      ["Check Database Query Performance", "Scale Up Service Replicas"]) ∧
    (getSuggestions alertOOM =
      [ { title := "Investigate Memory Leaks",
          description := "If memory climbs steadily until OOMKilled, there may be a memory leak.",
          action := "Capture a heap profile (pprof) and analyze memory allocations." } ]) ∧
    (getSuggestions alertUnknown = []) ∧
    (getSuggestions { AlertInfo.zero with name := "HIGHLATENCYALERT" } =
      getSuggestions { AlertInfo.zero with name := "highlatencyalert" }) ∧
    ((getSuggestions alertAllCats).map (fun s => s.title) =
      ["Check Database Query Performance", "Scale Up Service Replicas",
       "Investigate Recent Deployments", "Check Downstream Dependencies",
       "Review CPU Limits", "Investigate Memory Leaks"]) := by
  refine ⟨by decide, by decide, by decide, by decide, by decide⟩

/-- The all-categories analysis context: its alert matches all four rule
categories, so the engine returns six suggestions. -/
def acAllCats : AnalysisContext :=
  { AnalysisContext.zero with serviceName := "payments", alert := alertAllCats }

/-- The markdown document generated for the all-categories context under a
successful backend. -/
def c2Markdown : String :=
  match generate providerOk "pm-1" 0 acAllCats with
  | .ok pm => pm.markdown
  | .error _ => ""

set_option maxRecDepth 10000 in
/-- C2 counterexample: for the all-categories alert the engine matches six
suggestions and the composed markdown renders all six suggestion sections —
including the sixth one ("Investigate Memory Leaks"), beyond the first 3 —
so the composed document does not cap the suggested-fixes listing at 3. -/
theorem C2_counterexample_markdown_lists_beyond_three :
    (getSuggestions alertAllCats).length = 6 ∧
    countSub c2Markdown.toList "### ".toList = 6 ∧
    goContains c2Markdown "### Investigate Memory Leaks" = true := by
  refine ⟨by decide, by decide, by decide⟩

/-- The Postmortem record `Generate` builds before markdown assembly. -/
def generatedPM (ac : AnalysisContext) (newId : String) (now : Int) : Postmortem :=
  { id := newId,
    incidentName := "Incident: " ++ ac.alert.name ++ " on " ++ ac.serviceName,
    date := now, duration := now - ac.alert.startedAt,
    rootCause := "", impact := "", detectionMethod := "", actionItems := [],
    remediationRules := getSuggestions ac.alert, markdown := "" }

lemma generate_ok (provider : String → Except String String)
    (ac : AnalysisContext) (newId : String) (now : Int) (resp : String)
    (hok : provider (buildPostmortemPrompt ac now) = .ok resp) :
    generate provider newId now ac =
      .ok { generatedPM ac newId now with
            markdown := assembleMarkdown (generatedPM ac newId now) resp } := by
  simp [generate, hok, generatedPM]

/-- C2 amended: on a successful backend response, the suggested-fixes section
of the composed markdown lists every suggestion the Rule Engine returned — the
at-most-3 cap does not exist in the composer; it is only the Slack
notification renderer that shows at most the first 3 suggestions. -/
theorem C2_amended_markdown_lists_all_suggestions
    (provider : String → Except String String) (ac : AnalysisContext)
    (newId : String) (now : Int) (resp : String)
    (hok : provider (buildPostmortemPrompt ac now) = .ok resp)
    (s : Suggestion) (hs : s ∈ getSuggestions ac.alert) :
    ∃ pm, generate provider newId now ac = .ok pm ∧
      pm.remediationRules = getSuggestions ac.alert ∧
      goContains pm.markdown ("### " ++ s.title ++ "\n") = true ∧
      (slackSuggestionTexts pm.remediationRules).length =
        min 3 pm.remediationRules.length := by
  refine ⟨_, generate_ok provider ac newId now resp hok, rfl, ?_, ?_⟩
  · show goContains (assembleMarkdown (generatedPM ac newId now) resp) _ = true
    unfold assembleMarkdown
    rw [if_neg (by
      have := List.length_pos.mpr (List.ne_nil_of_mem hs)
      simp only [generatedPM]
      omega)]
    unfold goContains
    show listContainsSub (_ ++ renderRules (generatedPM ac newId now).remediationRules).toList _ = true
    rw [toList_append]
    exact listContainsSub_append_left _ _ _
      (renderRules_contains_title _ s hs)
  · simp [slackSuggestionTexts, generatedPM]

/-- Witness for the amended C2 at the all-categories context, instantiated at
the sixth (memory-category) suggestion. -/
theorem C2_amended_markdown_lists_all_suggestions_witness :
    ∃ pm, generate providerOk "pm-1" 0 acAllCats = .ok pm ∧
      pm.remediationRules = getSuggestions acAllCats.alert ∧
      goContains pm.markdown ("### " ++ "Investigate Memory Leaks" ++ "\n") = true ∧
      (slackSuggestionTexts pm.remediationRules).length =
        min 3 pm.remediationRules.length :=
  C2_amended_markdown_lists_all_suggestions providerOk acAllCats "pm-1" 0
    "NARRATIVE" rfl
    { title := "Investigate Memory Leaks",
      description := "If memory climbs steadily until OOMKilled, there may be a memory leak.",
      action := "Capture a heap profile (pprof) and analyze memory allocations." }
    (by decide)

/-! ## Claims about prompt construction (C7) -/

/-- A concrete alert item. -/
def alertItemW : AlertItem :=
  { status := "firing",
    labels := [("service_name", "payments"), ("alertname", "HighLatencyAlert"),
      ("severity", "critical")],
    annotations := [("summary", "p99 above SLO")],
    startsAt := 100, endsAt := 0, generatorURL := "", fingerprint := "fp1" }

/-- C7: prompt construction is a pure, deterministic function of its input —
two calls of either prompt builder on identical inputs produce byte-identical
prompt text (including identical panic behavior for the full-context one). -/
theorem C7_prompt_construction_deterministic :
    (∀ a b : AlertItem, a = b → buildPrompt a = buildPrompt b) ∧
    (∀ c d : AnalysisContext, c = d → buildContextPrompt c = buildContextPrompt d) :=
  ⟨fun _ _ h => congrArg buildPrompt h, fun _ _ h => congrArg buildContextPrompt h⟩

/-- Witness for C7 at concrete inputs. -/
theorem C7_prompt_construction_deterministic_witness :
    buildPrompt alertItemW = buildPrompt alertItemW ∧
    buildContextPrompt acAllCats = buildContextPrompt acAllCats :=
  ⟨C7_prompt_construction_deterministic.1 alertItemW alertItemW rfl,
   C7_prompt_construction_deterministic.2 acAllCats acAllCats rfl⟩

/-! ## Claims about commit rendering (C8, C10) -/

/-- A 60-character commit message. -/
def msg60 : String := "012345678901234567890123456789012345678901234567890123456789"

/-- Fifteen commits, all with SHAs of length at least 7 and newline-free
messages. -/
def commits15 : List CommitInfo :=
  (List.range 15).map fun i =>
    { sha := "abcdef" ++ toString i, message := "change number " ++ toString i,
      author := "dev", email := "dev@example.com", url := "", timestamp := 0,
      prNumber := 0 }

set_option maxRecDepth 10000 in
/-- C8: every commit message longer than 50 characters renders as its first 50
characters plus the `"..."` marker (so the 60-character message does), and
commit rendering ignores every entry beyond the tenth, so the 15-entry list
renders exactly 10 lines. -/
theorem C8_truncation_and_ten_commit_cap :
    (∀ s : String, 50 < s.length → truncate s 50 = goTake s 50 ++ "...") ∧
    (∀ commits : List CommitInfo,
      formatCommits commits = formatCommits (commits.take 10)) ∧
    truncate msg60 50 = goTake msg60 50 ++ "..." ∧
    msg60.length = 60 ∧ (goTake msg60 50).length = 50 ∧
    commits15.length = 15 ∧
    (formatCommits commits15).map (fun s => countSub s.toList "\n".toList) =
      some 10 := by
  refine ⟨?_, ?_, by decide, by decide, by decide, by decide, by decide⟩
  · intro s h
    unfold truncate
    rw [if_neg (by omega)]
  · intro commits
    unfold formatCommits
    rcases Nat.eq_zero_or_pos commits.length with h | h
    · rw [if_pos h, if_pos (by simp [h])]
    · rw [if_neg (by omega), if_neg (by rw [List.length_take]; omega), List.take_take]
      norm_num

/-- Witness for C8: the 60-character message and the 15-commit list. -/
theorem C8_truncation_and_ten_commit_cap_witness :
    truncate msg60 50 = goTake msg60 50 ++ "..." ∧
    formatCommits commits15 = formatCommits (commits15.take 10) :=
  ⟨C8_truncation_and_ten_commit_cap.1 msg60 (by decide),
   C8_truncation_and_ten_commit_cap.2.1 commits15⟩

/-- A commit whose SHA is shorter than 7 bytes. -/
def shortShaCommit : CommitInfo :=
  { sha := "abc", message := "tiny", author := "dev", email := "", url := "",
    timestamp := 0, prNumber := 0 }

/-- A context carrying the short-SHA commit. -/
def acShortSha : AnalysisContext :=
  { AnalysisContext.zero with recentCommits := [shortShaCommit] }

lemma renderCommits_isSome (commits : List CommitInfo)
    (h : ∀ c ∈ commits, 7 ≤ c.sha.length) : (renderCommits commits).isSome := by
  induction commits with
  | nil => rfl
  | cons c rest ih =>
    unfold renderCommits
    rw [if_neg (by have := h c (List.mem_cons_self _ _); omega)]
    obtain ⟨s, hs⟩ := Option.isSome_iff_exists.mp
      (ih (fun x hx => h x (List.mem_cons_of_mem _ hx)))
    rw [hs]
    rfl

lemma renderRecentCommitsLoop_isSome (commits : List CommitInfo)
    (h : ∀ c ∈ commits, 7 ≤ c.sha.length) :
    (renderRecentCommitsLoop commits).isSome := by
  induction commits with
  | nil => rfl
  | cons c rest ih =>
    unfold renderRecentCommitsLoop
    rw [if_neg (by have := h c (List.mem_cons_self _ _); omega)]
    obtain ⟨s, hs⟩ := Option.isSome_iff_exists.mp
      (ih (fun x hx => h x (List.mem_cons_of_mem _ hx)))
    rw [hs]
    rfl

/-- C10: the unguarded `c.SHA[:7]` slice makes commit rendering — hence the
full-context prompt, `AnalyzeWithContext`, and the MCP recent-commits
report — safe exactly under the precondition that every commit SHA has length
at least 7; a context containing a 3-byte SHA makes each of them panic. -/
theorem C10_sha_slice_panics_on_short_sha :
    (∀ commits : List CommitInfo, (∀ c ∈ commits, 7 ≤ c.sha.length) →
      (formatCommits commits).isSome) ∧
    (∀ ctx : AnalysisContext, (∀ c ∈ ctx.recentCommits, 7 ≤ c.sha.length) →
      (buildContextPrompt ctx).isSome) ∧
    (∀ (provider : String → Except String String) (newId : String) (now : Int)
        (ctx : AnalysisContext), (∀ c ∈ ctx.recentCommits, 7 ≤ c.sha.length) →
      (analyzeWithContext provider newId now ctx).isSome) ∧
    (∀ (repoName : String) (commits : List CommitInfo),
      (∀ c ∈ commits, 7 ≤ c.sha.length) →
      (handleGetRecentCommitsReport repoName commits).isSome) ∧
    formatCommits [shortShaCommit] = none ∧
    buildContextPrompt acShortSha = none ∧
    analyzeWithContext providerOk "id-1" 0 acShortSha = none ∧
    handleGetRecentCommitsReport "helixops" [shortShaCommit] = none := by
  have hfc : ∀ commits : List CommitInfo, (∀ c ∈ commits, 7 ≤ c.sha.length) →
      (formatCommits commits).isSome := by
    intro commits h
    unfold formatCommits
    split
    · rfl
    · exact renderCommits_isSome _ (fun c hc => h c (List.take_subset _ _ hc))
  have hbc : ∀ ctx : AnalysisContext, (∀ c ∈ ctx.recentCommits, 7 ≤ c.sha.length) →
      (buildContextPrompt ctx).isSome := by
    intro ctx h
    unfold buildContextPrompt
    obtain ⟨s, hs⟩ := Option.isSome_iff_exists.mp (hfc _ h)
    rw [hs]
    rfl
  refine ⟨hfc, hbc, ?_, ?_, rfl, rfl, rfl, rfl⟩
  · intro provider newId now ctx h
    unfold analyzeWithContext
    obtain ⟨s, hs⟩ := Option.isSome_iff_exists.mp (hbc _ h)
    rw [hs]
    rfl
  · intro repoName commits h
    unfold handleGetRecentCommitsReport
    split
    · rfl
    · obtain ⟨s, hs⟩ := Option.isSome_iff_exists.mp
        (renderRecentCommitsLoop_isSome _ (fun c hc => h c (List.take_subset _ _ hc)))
      rw [hs]
      rfl

/-- Witness for the safety preconditions of C10 at a long-SHA commit. -/
theorem C10_sha_slice_panics_on_short_sha_witness :
    (formatCommits [commitA]).isSome ∧
    (buildContextPrompt { AnalysisContext.zero with recentCommits := [commitA] }).isSome ∧
    (analyzeWithContext providerOk "id-1" 0
      { AnalysisContext.zero with recentCommits := [commitA] }).isSome ∧
    (handleGetRecentCommitsReport "helixops" [commitA]).isSome :=
  ⟨C10_sha_slice_panics_on_short_sha.1 [commitA] (by decide),
   C10_sha_slice_panics_on_short_sha.2.1 _ (by decide),
   C10_sha_slice_panics_on_short_sha.2.2.1 providerOk "id-1" 0 _ (by decide),
   C10_sha_slice_panics_on_short_sha.2.2.2.1 "helixops" [commitA] (by decide)⟩

end HelixOps
